import Mathlib

/-
Verification development for the Oclgrind device core (src/core/Device.cpp).
Each definition is a shallow embedding of a function (or a delimited part of
a function) of Device.cpp; the comment on each definition names the source
lines it embeds.  Definitions marked "Modelled from the spec:" embed
contracts of collaborators whose code is not part of the source tree
(WorkGroup, WorkItem), following the specification's wording for them.
-/

namespace Oclgrind

/-- Triple of sizes or ids, componentwise x, y, z. -/
abbrev Coord := Nat × Nat × Nat

/-- Modelled from the spec: WorkItem state machine `{Ready, Barrier, Finished}`
(WorkItem is an external collaborator; only its state enum is needed here). -/
inductive WIState where
  | ready
  | barrier
  | finished
deriving DecidableEq, Repr

/-- Modelled from the spec: a WorkGroup as seen by the scheduler, reduced to its
group coordinate and the states of its work-items (WorkGroup is an external
collaborator; `next_ready_item` returns none when all items are Barrier or
Finished, `has_barrier` reports an item at a barrier, `clear_barrier` flips all
Barrier items back to Ready). -/
structure ModelGroup where
  gid : Coord
  items : List WIState
deriving DecidableEq, Repr

/-- Modelled from the spec: WorkGroup::getNextWorkItem - returns a Ready
work-item (here: the index of the first one), or none when all items are
at a barrier or finished. -/
def getNextWorkItem (g : ModelGroup) : Option Nat :=
  g.items.findIdx? (fun s => s == WIState.ready)

/-- Modelled from the spec: WorkGroup::hasBarrier - whether some work-item of
the group is waiting at a barrier. -/
def hasBarrier (g : ModelGroup) : Bool :=
  g.items.any (fun s => s == WIState.barrier)

/-- Modelled from the spec: WorkGroup::clearBarrier - flips all Barrier items
back to Ready. -/
def clearBarrier (g : ModelGroup) : ModelGroup :=
  ⟨g.gid, g.items.map (fun s => if s == WIState.barrier then WIState.ready else s)⟩

/-- Delinearization of a work-item (or work-group) id as implemented in
Device::notifyDataRace (Device.cpp lines 241-244 and 252-255):
`gx = i % s0; gy = (i - gx) / s1; gz = (i - gy - gx) / s2`. -/
def delinearize (i : Nat) (s : Coord) : Coord :=
  let gx := i % s.1
  let gy := (i - gx) / s.2.1
  let gz := (i - gy - gx) / s.2.2
  (gx, gy, gz)

/-- Modelled from the spec: the conventional row-major re-linearization
`i = x + y*S0 + z*S0*S1` that the claim compares the decoder against
(the linearizing callers are outside the source tree). -/
def relinearize (g : Coord) (s : Coord) : Nat :=
  g.1 + g.2.1 * s.1 + g.2.2 * s.1 * s.2.1

/-- Scheduler state visible to Device::nextWorkItem (Device.cpp):
`m_currentWorkGroup`, `m_currentWorkItem` (here the index of the selected
item in the current group), `m_runningGroups` and `m_pendingGroups`. -/
structure SchedState where
  currentGroup : Option ModelGroup
  currentItem : Option Nat
  runningGroups : List ModelGroup
  pendingGroups : List Coord
deriving DecidableEq, Repr

/-- Loop part of Device::nextWorkItem (Device.cpp lines 161-188): the current
group is gone; take the head of the running pool, else the head of the pending
pool (instantiating a WorkGroup there via `spawn`, which gives the item states
of a freshly created group); if the group taken has no ready item, the C++ code
recurses into nextWorkItem, which clears a barrier if one is pending and
otherwise destroys the group and continues with the next pool entry. -/
def nwiLoop (spawn : Coord → List WIState) :
    List ModelGroup → List Coord → Bool × SchedState
  | g :: rest, pending =>
    (match getNextWorkItem g with
     | some i => (true, ⟨some g, some i, rest, pending⟩)
     | none =>
       if hasBarrier g then
         let g2 := clearBarrier g
         (true, ⟨some g2, getNextWorkItem g2, rest, pending⟩)
       else
         nwiLoop spawn rest pending)
  | [], p :: rest =>
    (match getNextWorkItem ⟨p, spawn p⟩ with
     | some i => (true, ⟨some ⟨p, spawn p⟩, some i, [], rest⟩)
     | none =>
       if hasBarrier ⟨p, spawn p⟩ then
         let g2 := clearBarrier ⟨p, spawn p⟩
         (true, ⟨some g2, getNextWorkItem g2, [], rest⟩)
       else
         nwiLoop spawn [] rest)
  | [], [] => (false, ⟨none, none, [], []⟩)

/-- Device::nextWorkItem (Device.cpp lines 134-189).  Clears the current item;
if the current group has a ready item, selects it; else if it has a pending
barrier, clears the barrier and selects the next ready item; otherwise the
group is destroyed and the pools are consulted (see `nwiLoop`).  Returns
whether a new current item is available, together with the new state. -/
def nextWorkItem (spawn : Coord → List WIState) (s : SchedState) :
    Bool × SchedState :=
  match s.currentGroup with
  | some g =>
    (match getNextWorkItem g with
     | some i => (true, { s with currentItem := some i })
     | none =>
       if hasBarrier g then
         let g2 := clearBarrier g
         (true, { s with currentGroup := some g2, currentItem := getNextWorkItem g2 })
       else
         nwiLoop spawn s.runningGroups s.pendingGroups)
  | none => nwiLoop spawn s.runningGroups s.pendingGroups

/-- Derived group counts, Device.cpp lines 462-464:
`m_numGroups[i] = m_globalSize[i] / m_localSize[i]`. -/
def numGroups (globalSize localSize : Coord) : Coord :=
  (globalSize.1 / localSize.1, globalSize.2.1 / localSize.2.1,
   globalSize.2.2 / localSize.2.2)

/-- Pending work-group enumeration of Device::run (Device.cpp lines 465-491):
in quick mode exactly the two corner groups are enqueued, first `(0,0,0)` then
`(n0-1, n1-1, n2-1)`; otherwise all groups are enqueued with k (z) as the
outer loop, j (y) in the middle and i (x) innermost. -/
def pendingEnum (quickMode : Bool) (n : Coord) : List Coord :=
  if quickMode then
    [(0, 0, 0), (n.1 - 1, n.2.1 - 1, n.2.2 - 1)]
  else
    (List.range n.2.2).flatMap (fun k =>
      (List.range n.2.1).flatMap (fun j =>
        (List.range n.1).map (fun i => (i, j, k))))

/-- Breakpoint-firing logic of one `continue` command, Device::cont
(Device.cpp lines 811-877), restricted to the per-instruction breakpoint
check.  `trace` is the sequence of current source lines observed after the
successive `WorkItem.step` calls; `lastBreak` is the value of the
function-static variable `lastBreakLine`, which survives across `continue`
commands; `canBreak` is the local flag, `false` on entry to every `continue`.
The result is the line at which a breakpoint fires (the command then returns
and stores that line into `lastBreakLine`), or none when the free run never
fires. -/
def contBreaks (bps : List Nat) (lastBreak : Nat) :
    Bool → List Nat → Option Nat
  | _, [] => none
  | canBreak, line :: rest =>
    if canBreak = false then
      if line ≠ lastBreak then
        (if bps.contains line then some line
         else contBreaks bps lastBreak true rest)
      else
        contBreaks bps lastBreak false rest
    else
      (if bps.contains line then some line
       else contBreaks bps lastBreak true rest)

/-- OpenCL address spaces accepted by the notification formatters
(Device.cpp lines 198-215 and 326-343). -/
inductive AddrSpace where
  | addrPrivate
  | addrGlobal
  | addrConstant
  | addrLocal
deriving DecidableEq, Repr

/-- Memory-type names used in error headers (Device.cpp lines 198-215). -/
def memTypeName : AddrSpace → String
  | AddrSpace.addrPrivate => "private"
  | AddrSpace.addrGlobal => "global"
  | AddrSpace.addrConstant => "constant"
  | AddrSpace.addrLocal => "local"

/-- Data-race kinds of Device::notifyDataRace (Device.cpp lines 219-230). -/
inductive DataRaceType where
  | readWriteRace
  | writeWriteRace
deriving DecidableEq, Repr

/-- An instruction as the diagnostic printer sees it: its disassembled text
and its optional debug location (line number and file name), consumed by
Device::printInstruction (Device.cpp lines 400-418). -/
structure InstrInfo where
  text : String
  debugLoc : Option (Nat × String)
deriving DecidableEq, Repr

/-- Lines of the diagnostic stream, at the granularity the error-block claims
need: each constructor is one line (or, for instructions, one printed unit)
written by the notification functions of Device.cpp. -/
inductive OutLine where
  | blank
  | memErrorHeader (read : Bool) (size : Nat) (memType : String) (address : Nat)
  | raceHeader (t : DataRaceType) (memType : String) (address : Nat)
  | divergenceHeader (kind : String)
  | errorHeader (title : String)
  | ctxWorkItem (gid lid : Coord)
  | ctxWorkGroup (g : Coord)
  | ctxKernel (name : String)
  | instrDump (text : String)
  | instrLoc (loc : Option (Nat × String))
  | raceEntityItem (g : Coord)
  | raceEntityGroup (g : Coord)
  | raceEntityUnknown
  | divergenceInfo (s : String)
  | prevInstrNote
  | errorInfo (s : String)
deriving DecidableEq, Repr

/-- Device::printInstruction (Device.cpp lines 400-418): the disassembled
instruction, then its debug location (or a note that none is available). -/
def printInstruction (i : InstrInfo) : List OutLine :=
  [OutLine.instrDump i.text, OutLine.instrLoc i.debugLoc]

/-- Error context of the Error Router: the optional current work-item (global
id, local id, current instruction), the optional current work-group id, and
the optional kernel name (Device.cpp fields consulted by printErrorContext). -/
structure ErrorCtx where
  currentItem : Option (Coord × Coord × InstrInfo)
  currentGroup : Option Coord
  kernelName : Option String
deriving DecidableEq, Repr

/-- Device::printErrorContext (Device.cpp lines 357-398): work-item ids if a
current item exists, then the work-group id if a current group exists, then
the kernel name if a kernel is set, then the current instruction if a current
item exists. -/
def printErrorContext (c : ErrorCtx) : List OutLine :=
  (match c.currentItem with
   | some (g, l, _) => [OutLine.ctxWorkItem g l]
   | none => []) ++
  (match c.currentGroup with
   | some g => [OutLine.ctxWorkGroup g]
   | none => []) ++
  (match c.kernelName with
   | some k => [OutLine.ctxKernel k]
   | none => []) ++
  (match c.currentItem with
   | some (_, _, instr) => printInstruction instr
   | none => [])

/-- Result of one Error Router notification: the lines written to the
diagnostic stream and the value of `m_forceBreak` afterwards. -/
structure NotifyResult where
  out : List OutLine
  forceBreak : Bool
deriving DecidableEq, Repr

/-- Device::notifyMemoryError (Device.cpp lines 322-355): a leading line end,
the "Invalid read/write of size S at T memory address A" header, the error
context, a trailing blank line; then `m_forceBreak = true`. -/
def notifyMemoryError (c : ErrorCtx) (read : Bool) (addrSpace : AddrSpace)
    (address size : Nat) : NotifyResult :=
  ⟨[OutLine.blank, OutLine.memErrorHeader read size (memTypeName addrSpace) address] ++
     printErrorContext c ++ [OutLine.blank], true⟩

/-- Device::notifyError (Device.cpp lines 308-320): the error title, the error
context, the optional info line, a trailing blank line; then
`m_forceBreak = true`. -/
def notifyError (c : ErrorCtx) (error info : String) : NotifyResult :=
  ⟨[OutLine.blank, OutLine.errorHeader error] ++ printErrorContext c ++
     (if info = "" then [] else [OutLine.errorInfo info]) ++ [OutLine.blank], true⟩

/-- Other-entity block of Device::notifyDataRace (Device.cpp lines 239-264):
a last work-item id is delinearized against the global size, else a last
work-group id against the group counts, else the entity is unknown. -/
def raceEntity (globalSize ngroups : Coord)
    (lastWorkItem lastWorkGroup : Option Nat) : List OutLine :=
  match lastWorkItem with
  | some w => [OutLine.raceEntityItem (delinearize w globalSize)]
  | none =>
    match lastWorkGroup with
    | some g => [OutLine.raceEntityGroup (delinearize g ngroups)]
    | none => [OutLine.raceEntityUnknown]

/-- Device::notifyDataRace (Device.cpp lines 191-276): the race header, the
error context, a blank line, the other entity involved, the conflicting
instruction if known, a trailing blank line; then `m_forceBreak = true`. -/
def notifyDataRace (c : ErrorCtx) (globalSize ngroups : Coord)
    (t : DataRaceType) (addrSpace : AddrSpace) (address : Nat)
    (lastWorkItem lastWorkGroup : Option Nat)
    (lastInstruction : Option InstrInfo) : NotifyResult :=
  ⟨[OutLine.blank, OutLine.raceHeader t (memTypeName addrSpace) address] ++
     printErrorContext c ++ [OutLine.blank] ++
     raceEntity globalSize ngroups lastWorkItem lastWorkGroup ++
     (match lastInstruction with
      | some i => printInstruction i
      | none => []) ++
     [OutLine.blank], true⟩

/-- Device::notifyDivergence (Device.cpp lines 278-306): the divergence
header, the error context, the optional current info, a blank line, the
previous-work-items note with the divergent instruction and optional previous
info, a trailing blank line; then `m_forceBreak = true`. -/
def notifyDivergence (c : ErrorCtx) (instr : InstrInfo)
    (divergence currentInfo previousInfo : String) : NotifyResult :=
  ⟨[OutLine.blank, OutLine.divergenceHeader divergence] ++ printErrorContext c ++
     (if currentInfo = "" then [] else [OutLine.divergenceInfo currentInfo]) ++
     [OutLine.blank, OutLine.prevInstrNote] ++ printInstruction instr ++
     (if previousInfo = "" then [] else [OutLine.divergenceInfo previousInfo]) ++
     [OutLine.blank], true⟩

/-- Commands of the interactive loop relevant to the quit claim. -/
inductive Cmd where
  | quitCmd
  | contCmd
  | otherCmd
deriving DecidableEq, Repr

/-- State carried by the interactive command loop of Device::run:
`m_running`, `m_interactive`, the breakpoint table, plus an abstraction of
kernel progress: how many `WorkItem.step` calls remain until every work-item
has finished, and how many have been executed. -/
structure RunState where
  running : Bool
  interactive : Bool
  breakpoints : List (Nat × Nat)
  remainingWork : Nat
  stepsExecuted : Nat
deriving DecidableEq, Repr

/-- Device::quit (Device.cpp lines 1371-1376): clears `m_interactive`,
clears `m_running`, clears all breakpoints. -/
def quitDispatch (s : RunState) : RunState :=
  { s with interactive := false, running := false, breakpoints := [] }

/-- Device::cont in the break-free case (Device.cpp lines 811-877): the free
run drains all remaining work and ends with `m_running = false` when the last
work-item finishes. -/
def contDispatch (s : RunState) : RunState :=
  { s with stepsExecuted := s.stepsExecuted + s.remainingWork,
           remainingWork := 0, running := false }

/-- Command dispatch of the interactive loop (Device.cpp lines 582-590),
restricted to the commands the quit claim concerns. -/
def dispatch : Cmd → RunState → RunState
  | Cmd.quitCmd, s => quitDispatch s
  | Cmd.contCmd, s => contDispatch s
  | Cmd.otherCmd, s => s

/-- Interactive command loop of Device::run (Device.cpp lines 534-591):
while `m_running`, read a command and dispatch it; end of input quits.  The
teardown after the loop (lines 602-618) executes no further work-item steps,
so the state returned here is the state at which `run` returns. -/
def commandLoop : List Cmd → RunState → RunState
  | [], s => if s.running then quitDispatch s else s
  | c :: rest, s => if s.running then commandLoop rest (dispatch c s) else s

/-- Stepping loop of Device::step (Device.cpp lines 737-751).  `trace` lists,
for each successive `WorkItem.step` call, the state the call returns and the
current line number after it; the result is the number of `WorkItem.step`
calls issued: the do-while body always steps once, breaks when the item left
Ready, and repeats while the source is loaded and the new line equals the
previous line or is 0. -/
def stepLoop (srcLoaded : Bool) (prevLine : Nat) : List (WIState × Nat) → Nat
  | [] => 0
  | (st, line) :: rest =>
    1 + (if st = WIState.ready ∧ srcLoaded = true ∧ (line = prevLine ∨ line = 0)
         then stepLoop srcLoaded prevLine rest
         else 0)

/-- Modelled from the spec: the same stepping loop with the loop condition as
the specification words it - "repeatedly while the item remains Ready and
(no source is loaded, or the new line equals the previous line, or the new
line is 0)" - for comparison with `stepLoop`, which embeds the code. -/
def stepLoopSpec (srcLoaded : Bool) (prevLine : Nat) :
    List (WIState × Nat) → Nat
  | [] => 0
  | (st, line) :: rest =>
    1 + (if st = WIState.ready ∧ (srcLoaded = false ∨ line = prevLine ∨ line = 0)
         then stepLoopSpec srcLoaded prevLine rest
         else 0)

/-- Device::step including the early returns (Device.cpp lines 724-751): a
work-item at a barrier or finished is not stepped at all; a Ready item enters
the stepping loop. -/
def stepCmd (srcLoaded : Bool) (curState : WIState) (prevLine : Nat)
    (trace : List (WIState × Nat)) : Nat :=
  match curState with
  | WIState.barrier => 0
  | WIState.finished => 0
  | WIState.ready => stepLoop srcLoaded prevLine trace

/-- Removes the first element satisfying `p` from a list, returning it and
the remainder in order (the effect of `std::list::erase` at the iterator the
search loops of Device::workitem stop at, Device.cpp lines 1441-1474). -/
def removeFirst (p : α → Bool) : List α → Option (α × List α)
  | [] => none
  | x :: rest =>
    if p x then some (x, rest)
    else
      match removeFirst p rest with
      | some (y, rest2) => some (y, x :: rest2)
      | none => none

/-- Scheduler state as the workitem command sees it: the code dereferences
`m_currentWorkGroup` unconditionally (Device.cpp line 1430), so the current
group is not optional here; the current item is kept as its global id. -/
structure WiCmdState where
  currentGroup : ModelGroup
  currentItemGid : Option Coord
  runningGroups : List ModelGroup
  pendingGroups : List Coord
deriving DecidableEq, Repr

/-- Componentwise division, as in the group-id computation of Device::workitem
(Device.cpp lines 1419-1424). -/
def divCoord (g l : Coord) : Coord :=
  (g.1 / l.1, g.2.1 / l.2.1, g.2.2 / l.2.2)

/-- Componentwise remainder, as in the local-id computation of
Device::workitem (Device.cpp lines 1488-1493). -/
def modCoord (g l : Coord) : Coord :=
  (g.1 % l.1, g.2.1 % l.2.1, g.2.2 % l.2.2)

/-- Modelled from the spec: WorkGroup::getWorkItem - the work-item of a group
at a given local id; its global id is the group coordinate scaled by the
local size plus the local id (the spec fixes `local_id = global_id mod
local_size` and `group_id = global_id / local_size`; WorkGroup itself is an
external collaborator). -/
def itemGlobalID (groupID lid lsz : Coord) : Coord :=
  (groupID.1 * lsz.1 + lid.1, groupID.2.1 * lsz.2.1 + lid.2.1,
   groupID.2.2 * lsz.2.2 + lid.2.2)

/-- Group-locating part of Device::workitem (Device.cpp lines 1418-1508):
compute the target group id; if it is the current group, keep it; else search
the running pool (removing the hit); else search the pending pool (removing
the hit and instantiating a WorkGroup via `spawn`); if nowhere found report
failure (none).  When the current group changed, the previous current group
is pushed to the tail of the running pool.  Finally the target work-item at
`global_id mod local_size` becomes current. -/
def workitemSwitch (spawn : Coord → List WIState) (lsz : Coord) (G : Coord)
    (s : WiCmdState) : Option WiCmdState :=
  let grp := divCoord G lsz
  let lid := modCoord G lsz
  if s.currentGroup.gid = grp then
    some { s with currentItemGid := some (itemGlobalID grp lid lsz) }
  else
    match removeFirst (fun g => g.gid == grp) s.runningGroups with
    | some (g, rest) =>
      some ⟨g, some (itemGlobalID grp lid lsz), rest ++ [s.currentGroup],
            s.pendingGroups⟩
    | none =>
      match removeFirst (fun p => p == grp) s.pendingGroups with
      | some (_, rest) =>
        some ⟨⟨grp, spawn grp⟩, some (itemGlobalID grp lid lsz),
              s.runningGroups ++ [s.currentGroup], rest⟩
      | none => none

/-- Device::workitem after argument parsing (Device.cpp lines 1402-1416 gate
each parsed component against the global size; a failing component aborts the
command).  Here the three components arrive parsed in `G`. -/
def workitemCmd (spawn : Coord → List WIState) (gsz lsz : Coord) (G : Coord)
    (s : WiCmdState) : Option WiCmdState :=
  if G.1 < gsz.1 ∧ G.2.1 < gsz.2.1 ∧ G.2.2 < gsz.2.2 then
    workitemSwitch spawn lsz G s
  else
    none

/-- Stored global size after the set-up loop of Device::run (Device.cpp lines
429-443): every cell is initialised to 1 and cell `i` is overwritten, without
a zero guard, exactly when `i < workDim`. -/
def storedGlobalSize (workDim : Nat) (globalSize : Nat → Nat) (i : Nat) : Nat :=
  if i < workDim then globalSize i else 1

/-- Stored global offset after the set-up loop (Device.cpp lines 430, 435-438):
initialised to 0, overwritten inside workDim only when nonzero. -/
def storedGlobalOffset (workDim : Nat) (globalOffset : Nat → Nat) (i : Nat) : Nat :=
  if i < workDim then (if globalOffset i ≠ 0 then globalOffset i else 0) else 0

/-- Stored local size after the set-up loop (Device.cpp lines 431, 439-442):
initialised to 1, overwritten inside workDim only when nonzero. -/
def storedLocalSize (workDim : Nat) (localSize : Nat → Nat) (i : Nat) : Nat :=
  if i < workDim then (if localSize i ≠ 0 then localSize i else 1) else 1

/-- Group counts computed from the stored sizes (Device.cpp lines 462-464). -/
def storedNumGroups (workDim : Nat) (globalSize localSize : Nat → Nat)
    (i : Nat) : Nat :=
  storedGlobalSize workDim globalSize i / storedLocalSize workDim localSize i

/-- Argument-parsing loop of Device::workitem (Device.cpp lines 1405-1416),
recorded as the list of `gid` array indices the loop accesses.  The i-th
command argument (0-based here) is parsed into `gid[i]`; `none` stands for a
token that fails numeric parsing (the command then returns), and a parsed
value is checked against `m_globalSize[i]` (an out-of-range value also makes
the command return).  The index is accessed by the parse itself, before either
check. -/
def wiParseGo (gsize : Nat → Nat) (i : Nat) : List (Option Nat) → List Nat
  | [] => []
  | v :: rest =>
    i :: (match v with
          | none => []
          | some x => if x < gsize i then wiParseGo gsize (i + 1) rest else [])

/-- Indices of the `gid[3]` array accessed while parsing a workitem command
whose arguments (after the command token) are `args`. -/
def wiParseIndices (gsize : Nat → Nat) (args : List (Option Nat)) : List Nat :=
  wiParseGo gsize 0 args

/-- C1: the spec claims that for every global id I < prod(global_size),
delinearizing I with the Error Router's convention and re-linearizing with
the conventional row-major form yields I again.  The code divides by
`globalSize[1]` and `globalSize[2]` instead of `globalSize[0]` and
`globalSize[0]*globalSize[1]`, so the round trip fails: with
global_size = (4,2,1) the valid id 5 decodes to (1,2,2), which re-linearizes
to 25, not 5. -/
theorem C1_delinearize_roundtrip_fails :
    5 < 4 * 2 * 1 ∧
    delinearize 5 (4, 2, 1) = (1, 2, 2) ∧
    relinearize (delinearize 5 (4, 2, 1)) (4, 2, 1) = 25 ∧
    relinearize (delinearize 5 (4, 2, 1)) (4, 2, 1) ≠ 5 := by
  decide

/-- C4 counterexample: the claim says a fresh `continue` resets the
last-break-line latch, so a breakpoint on the line where the previous
`continue` stopped fires again immediately.  In the code `lastBreakLine` is a
function-static variable that survives the return: with a breakpoint at line
3 and `lastBreakLine = 3` from the previous stop, a fresh `continue` whose
steps stay on line 3 never fires. -/
theorem C4_latch_counterexample :
    contBreaks [3] 3 false [3, 3, 3] = none := by
  decide

/-- C4 amended: within one `continue` at most one breakpoint fires (a fire
returns from the command), and the remembered break line is NOT reset by a
fresh `continue`: while the trace stays on the remembered line no breakpoint
fires, the first line different from it re-arms the check (so the same
breakpoint fires again only after execution leaves that line, e.g. trace
3,4,3 re-fires at 3), and a latch that really were reset to another line
would fire immediately. -/
theorem C4_latch_amended :
    (∀ (bps : List Nat) (lastBreak n : Nat) (rest : List Nat),
        contBreaks bps lastBreak false (List.replicate n lastBreak ++ rest) =
          contBreaks bps lastBreak false rest) ∧
    contBreaks [3] 3 false [3, 4, 3] = some 3 ∧
    contBreaks [3] 0 false [3] = some 3 := by
  refine ⟨?_, by decide, by decide⟩
  intro bps lastBreak n rest
  induction n with
  | zero => simp
  | succ n ih => simpa [List.replicate_succ, contBreaks] using ih

/-- Helper: the command loop does nothing once `m_running` is false. -/
theorem commandLoop_of_not_running (cmds : List Cmd) (s : RunState)
    (h : s.running = false) : commandLoop cmds s = s := by
  cases cmds <;> simp [commandLoop, h]

/-- C6 counterexample: the claim says that after `quit` the kernel run
continues non-interactively and the remaining work-items execute to
completion.  In the code `quit` clears `m_running`, the command loop exits,
and teardown runs no further work-item steps: with 4 steps of work remaining,
processing a quit command returns with all 4 still unexecuted. -/
theorem C6_quit_counterexample :
    commandLoop [Cmd.quitCmd] ⟨true, true, [], 4, 0⟩ =
      ⟨false, false, [], 4, 0⟩ ∧
    (commandLoop [Cmd.quitCmd] ⟨true, true, [], 4, 0⟩).remainingWork ≠ 0 ∧
    (commandLoop [Cmd.quitCmd] ⟨true, true, [], 4, 0⟩).stepsExecuted = 0 := by
  refine ⟨rfl, by decide, rfl⟩

/-- C6 amended: `quit` clears `m_interactive` and `m_running` and all
breakpoints, and the command loop then terminates immediately - ignoring any
further input and executing no further work-item steps - so `run` returns
with the remaining work-items unexecuted (the in-code help text: quit
terminates the current kernel invocation). -/
theorem C6_quit_amended :
    (∀ s : RunState,
        (quitDispatch s).interactive = false ∧
        (quitDispatch s).running = false ∧
        (quitDispatch s).breakpoints = [] ∧
        (quitDispatch s).stepsExecuted = s.stepsExecuted ∧
        (quitDispatch s).remainingWork = s.remainingWork) ∧
    (∀ (rest : List Cmd) (s : RunState),
        commandLoop (Cmd.quitCmd :: rest) s =
          if s.running then quitDispatch s else s) := by
  refine ⟨fun s => ⟨rfl, rfl, rfl, rfl, rfl⟩, ?_⟩
  intro rest s
  by_cases h : s.running
  · simp only [commandLoop, h, if_true, dispatch]
    exact commandLoop_of_not_running rest (quitDispatch s) rfl
  · simp only [commandLoop, h, if_false]
    simp [h]

/-- C7 counterexample: the claim's loop condition "while the item remains
Ready and (no source is loaded, or the new line equals the previous line, or
the new line is 0)" would keep stepping a Ready item when no source is
loaded (here 2 steps), but the code's condition requires the source to be
loaded, so with no source exactly one `WorkItem.step` is issued - as the
claim's own "exactly one instruction when no source is loaded" clause says. -/
theorem C7_step_counterexample :
    stepLoop false 5 [(WIState.ready, 5), (WIState.ready, 6)] = 1 ∧
    stepLoopSpec false 5 [(WIState.ready, 5), (WIState.ready, 6)] = 2 := by
  decide

/-- C7 amended: the step command issues `WorkItem.step` repeatedly while the
item remains Ready AND source is loaded AND (the new line equals the previous
line or is 0): with no source it advances exactly one instruction; with
source it continues through same-line and line-0 results and stops at the
first different nonzero line; an item that leaves Ready stops the loop after
that step; and a Ready current item enters the loop while a barrier/finished
item is not stepped at all. -/
theorem C7_step_amended :
    (∀ (prevLine : Nat) (x : WIState × Nat) (rest : List (WIState × Nat)),
        stepLoop false prevLine (x :: rest) = 1) ∧
    (∀ (prevLine line : Nat) (rest : List (WIState × Nat)),
        stepLoop true prevLine ((WIState.ready, line) :: rest) =
          if line = prevLine ∨ line = 0 then 1 + stepLoop true prevLine rest
          else 1) ∧
    (∀ (srcLoaded : Bool) (prevLine line : Nat) (rest : List (WIState × Nat)),
        stepLoop srcLoaded prevLine ((WIState.barrier, line) :: rest) = 1 ∧
        stepLoop srcLoaded prevLine ((WIState.finished, line) :: rest) = 1) ∧
    (∀ (srcLoaded : Bool) (prevLine : Nat) (trace : List (WIState × Nat)),
        stepCmd srcLoaded WIState.ready prevLine trace =
          stepLoop srcLoaded prevLine trace ∧
        stepCmd srcLoaded WIState.barrier prevLine trace = 0 ∧
        stepCmd srcLoaded WIState.finished prevLine trace = 0) := by
  refine ⟨?_, ?_, ?_, fun _ _ _ => ⟨rfl, rfl, rfl⟩⟩
  · intro prevLine x rest
    obtain ⟨st, line⟩ := x
    simp [stepLoop]
  · intro prevLine line rest
    by_cases h : line = prevLine ∨ line = 0 <;> simp [stepLoop, h]
  · intro srcLoaded prevLine line rest
    constructor <;> simp [stepLoop]

/-- C9 counterexample: the claim says every component of the stored global
size is at least 1 (a zero component passed within workDim left at 1).  The
set-up loop copies `globalSize[i]` without a zero guard, so a zero global
size within workDim is stored as 0. -/
theorem C9_size_counterexample :
    storedGlobalSize 1 (fun _ => 0) 0 = 0 ∧
    ¬ 1 ≤ storedGlobalSize 1 (fun _ => 0) 0 := by
  constructor <;> norm_num [storedGlobalSize]

/-- C9 amended: every component of the stored LOCAL size is at least 1
(components outside workDim stay 1 and a zero component passed within
workDim is left at 1), so the three num_groups divisions - which divide by
the stored local sizes - never divide by zero; stored global size components
outside workDim also stay 1, but a zero global size within workDim is stored
as 0 (making that num_groups component 0). -/
theorem C9_size_amended :
    (∀ (workDim : Nat) (localSize : Nat → Nat) (i : Nat),
        1 ≤ storedLocalSize workDim localSize i) ∧
    (∀ (workDim : Nat) (localSize : Nat → Nat) (i : Nat),
        storedLocalSize workDim localSize i ≠ 0) ∧
    (∀ (workDim : Nat) (globalSize : Nat → Nat) (k : Nat),
        storedGlobalSize workDim globalSize (workDim + k) = 1) ∧
    (∀ (workDim : Nat) (localSize : Nat → Nat) (k : Nat),
        storedLocalSize workDim localSize (workDim + k) = 1) ∧
    (∀ (workDim : Nat) (i : Nat),
        storedLocalSize workDim (fun _ => 0) i = 1) := by
  refine ⟨?_, ?_, ?_, ?_, ?_⟩
  · intro workDim localSize i
    unfold storedLocalSize
    split
    · split <;> omega
    · omega
  · intro workDim localSize i
    unfold storedLocalSize
    split
    · split <;> omega
    · omega
  · intro workDim globalSize k
    unfold storedGlobalSize
    split
    · omega
    · rfl
  · intro workDim localSize k
    unfold storedLocalSize
    split
    · omega
    · rfl
  · intro workDim i
    unfold storedLocalSize
    split <;> simp

/-- C10: the claim says the workitem argument-parsing loop only ever writes
the three elements gid[0..2].  With four (or more) arguments that all parse
and pass the validation of the earlier components, the loop reaches its
fourth iteration and accesses `gid[3]` (and `m_globalSize[3]`), out of
bounds: four arguments 0 under global size 1 access indices 0, 1, 2 and 3. -/
theorem C10_parse_out_of_bounds :
    wiParseIndices (fun _ => 1) [some 0, some 0, some 0, some 0] =
      [0, 1, 2, 3] ∧
    3 ∈ wiParseIndices (fun _ => 1) [some 0, some 0, some 0, some 0] ∧
    ¬ 3 < 3 := by
  have h : wiParseIndices (fun _ => 1) [some 0, some 0, some 0, some 0] =
      [0, 1, 2, 3] := rfl
  exact ⟨h, by rw [h]; decide, by decide⟩

/-- Helper: a flatMap over `range m` whose pieces all have length L has
length m * L. -/
theorem flatMap_range_const_length {α : Type} (f : Nat → List α) (L : Nat)
    (hL : ∀ x, (f x).length = L) (m : Nat) :
    ((List.range m).flatMap f).length = m * L := by
  induction m with
  | zero => simp
  | succ m ih =>
    rw [List.range_succ, List.flatMap_append, List.length_append, ih]
    simp [hL, Nat.succ_mul]

/-- Helper: indexing into a flatMap over `range m` with constant piece
length L: position b * L + a lands at position a of piece b. -/
theorem flatMap_range_const_get {α : Type} (f : Nat → List α) (L : Nat)
    (hL : ∀ x, (f x).length = L) :
    ∀ (m b a : Nat), b < m → a < L →
      ((List.range m).flatMap f).get? (b * L + a) = (f b).get? a := by
  intro m
  induction m with
  | zero => intro b a hb _; exact absurd hb (Nat.not_lt_zero b)
  | succ m ih =>
    intro b a hb ha
    rw [List.range_succ, List.flatMap_append]
    by_cases hbm : b < m
    · rw [List.get?_append]
      · exact ih b a hbm ha
      · rw [flatMap_range_const_length f L hL m]
        have h1 : b * L + a < (b + 1) * L := by
          have : (b + 1) * L = b * L + L := by ring
          omega
        have h2 : (b + 1) * L ≤ m * L := Nat.mul_le_mul_right L (by omega)
        omega
    · have hbm2 : b = m := by omega
      rw [List.get?_append_right]
      · rw [flatMap_range_const_length f L hL m, hbm2]
        have h3 : m * L + a - m * L = a := by omega
        rw [h3]
        simp
      · rw [flatMap_range_const_length f L hL m, ← hbm2]
        omega

/-- Helper: a flatMap over `range m` is duplicate-free when every piece is
duplicate-free and some component function recovers the range index from
every element of its piece. -/
theorem nodup_flatMap_range {α : Type} (m : Nat) (f : Nat → List α)
    (g : α → Nat) (hnod : ∀ b, (f b).Nodup)
    (hcomp : ∀ b x, x ∈ f b → g x = b) :
    ((List.range m).flatMap f).Nodup := by
  rw [List.nodup_flatMap]
  refine ⟨fun b _ => hnod b, ?_⟩
  have hne : (List.range m).Pairwise (· ≠ ·) :=
    (List.pairwise_lt_range m).imp (fun h => Nat.ne_of_lt h)
  exact hne.imp (fun hab x hx hy =>
    absurd ((hcomp _ _ hx).symm.trans (hcomp _ _ hy)) hab)

/-- Helper: membership in the non-quick enumeration is exactly componentwise
range membership. -/
theorem pendingEnum_mem (n : Coord) (i j k : Nat) :
    (i, j, k) ∈ pendingEnum false n ↔ i < n.1 ∧ j < n.2.1 ∧ k < n.2.2 := by
  obtain ⟨n1, n2, n3⟩ := n
  simp only [pendingEnum, Bool.false_eq_true, if_false, List.mem_flatMap,
    List.mem_map, List.mem_range]
  constructor
  · rintro ⟨k2, hk2, j2, hj2, i2, hi2, heq⟩
    rw [Prod.mk.injEq, Prod.mk.injEq] at heq
    obtain ⟨h1, h2, h3⟩ := heq
    subst h1; subst h2; subst h3
    exact ⟨hi2, hj2, hk2⟩
  · rintro ⟨hi, hj, hk⟩
    exact ⟨k, hk, j, hj, i, hi, rfl⟩

/-- Helper: the non-quick enumeration is duplicate-free. -/
theorem pendingEnum_nodup (n : Coord) : (pendingEnum false n).Nodup := by
  obtain ⟨n1, n2, n3⟩ := n
  simp only [pendingEnum, Bool.false_eq_true, if_false]
  apply nodup_flatMap_range n3 _ (fun x : Coord => x.2.2)
  · intro k
    apply nodup_flatMap_range n2 _ (fun x : Coord => x.2.1)
    · intro j
      exact List.Nodup.map (fun a b h => congrArg Prod.fst h)
        (List.nodup_range n1)
    · intro j x hx
      simp only [List.mem_map, List.mem_range] at hx
      obtain ⟨i, _, rfl⟩ := hx
      rfl
  · intro k x hx
    simp only [List.mem_flatMap, List.mem_map, List.mem_range] at hx
    obtain ⟨j, _, i, _, rfl⟩ := hx
    rfl

/-- C3: at run start with quick_mode set, exactly the two corner groups are
enqueued - (0,0,0) first, then (n0-1, n1-1, n2-1) - even when they coincide;
with quick_mode unset every in-range group appears exactly once (membership
iff in range, and the whole list is duplicate-free), in z-outer, y-middle,
x-inner order (the group (i,j,k) sits at position i + j*n0 + k*n0*n1); for
global_size = (4,2,1), local_size = (2,1,1) the schedule is
(0,0,0),(1,0,0),(0,1,0),(1,1,0). -/
theorem C3_enumeration :
    (∀ n : Coord,
        pendingEnum true n = [(0, 0, 0), (n.1 - 1, n.2.1 - 1, n.2.2 - 1)] ∧
        (pendingEnum true n).length = 2) ∧
    (∀ (n : Coord) (i j k : Nat),
        (i, j, k) ∈ pendingEnum false n ↔ i < n.1 ∧ j < n.2.1 ∧ k < n.2.2) ∧
    (∀ n : Coord, (pendingEnum false n).Nodup) ∧
    (∀ (n : Coord) (i j k : Nat), i < n.1 → j < n.2.1 → k < n.2.2 →
        (pendingEnum false n).get? (i + j * n.1 + k * (n.1 * n.2.1)) =
          some (i, j, k)) ∧
    (numGroups (4, 2, 1) (2, 1, 1) = (2, 2, 1) ∧
      pendingEnum false (2, 2, 1) =
        [(0, 0, 0), (1, 0, 0), (0, 1, 0), (1, 1, 0)]) := by
  refine ⟨fun n => ⟨rfl, rfl⟩, pendingEnum_mem, pendingEnum_nodup, ?_,
    by decide, by decide⟩
  intro n i j k hi hj hk
  obtain ⟨n1, n2, n3⟩ := n
  dsimp only at hi hj hk ⊢
  simp only [pendingEnum, Bool.false_eq_true, if_false]
  have hplane : ∀ kk : Nat,
      ((List.range n2).flatMap
        (fun j => (List.range n1).map (fun i => (i, j, kk)))).length =
        n2 * n1 :=
    fun kk => flatMap_range_const_length _ n1 (fun j => by simp) n2
  have hbound : j * n1 + i < n2 * n1 := by
    have h1 : (j + 1) * n1 ≤ n2 * n1 := Nat.mul_le_mul_right n1 (by omega)
    have h2 : (j + 1) * n1 = j * n1 + n1 := by ring
    omega
  have hidx : i + j * n1 + k * (n1 * n2) = k * (n2 * n1) + (j * n1 + i) := by
    ring
  rw [hidx,
    flatMap_range_const_get _ (n2 * n1) hplane n3 k (j * n1 + i) hk hbound,
    flatMap_range_const_get _ n1 (fun jj => by simp) n2 j i hj hi,
    List.get?_map, List.get?_range hi]
  rfl

/-- Witness for C3: in the 2 x 2 x 1 group grid, the group (1,1,0) sits at
enumeration position 1 + 1*2 + 0*(2*2) = 3. -/
theorem C3_enumeration_witness :
    (pendingEnum false (2, 2, 1)).get? (1 + 1 * 2 + 0 * (2 * 2)) =
      some (1, 1, 0) :=
  C3_enumeration.2.2.2.1 (2, 2, 1) 1 1 0 (by decide) (by decide) (by decide)

/-- Helper: clearing a barrier on a group that has one leaves the group with
a ready item, so the subsequent `getNextWorkItem` must succeed. -/
theorem clearBarrier_has_ready (g : ModelGroup) (h : hasBarrier g = true) :
    (getNextWorkItem (clearBarrier g)).isSome = true := by
  unfold getNextWorkItem clearBarrier
  rw [List.findIdx?_isSome, List.any_eq_true]
  unfold hasBarrier at h
  rw [List.any_eq_true] at h
  obtain ⟨s, hs, hb⟩ := h
  refine ⟨if s == WIState.barrier then WIState.ready else s, ?_, ?_⟩
  · exact List.mem_map.2 ⟨s, hs, rfl⟩
  · rw [hb]
    simp

/-- Helper: the pool-consuming loop of nextWorkItem returns false exactly
when it ends in the empty scheduler state. -/
theorem nwiLoop_false_iff (spawn : Coord → List WIState) :
    ∀ (running : List ModelGroup) (pending : List Coord),
      ((nwiLoop spawn running pending).1 = false ↔
        (nwiLoop spawn running pending).2 =
          SchedState.mk none none [] []) := by
  intro running
  induction running with
  | nil =>
    intro pending
    induction pending with
    | nil => simp [nwiLoop]
    | cons p rest ih =>
      unfold nwiLoop
      cases hg : getNextWorkItem ⟨p, spawn p⟩ with
      | some i => simp
      | none =>
        by_cases hb : hasBarrier ⟨p, spawn p⟩
        · simp [hb]
        · simpa [hb] using ih
  | cons g rest ih =>
    intro pending
    unfold nwiLoop
    cases hg : getNextWorkItem g with
    | some i => simp
    | none =>
      by_cases hb : hasBarrier g
      · simp [hb]
      · simpa [hb] using ih pending

/-- C2: the nextWorkItem algorithm: (1) a current group with no ready item
but a pending barrier has its barrier cleared and a next ready item taken
(which must exist), returning true; (2) a current group with neither is
destroyed and the pools take over; (3) the pool loop skips groups whose
items all finished; (4) a running-pool head with a ready item becomes
current; (5) else a pending-pool head is instantiated and becomes current;
(6) the call returns false exactly when no current, running or pending group
is left. -/
theorem C2_nextWorkItem_spec (spawn : Coord → List WIState) :
    (∀ (s : SchedState) (g : ModelGroup),
        s.currentGroup = some g → getNextWorkItem g = none →
        hasBarrier g = true →
        nextWorkItem spawn s =
          (true, { s with currentGroup := some (clearBarrier g),
                          currentItem := getNextWorkItem (clearBarrier g) }) ∧
        (getNextWorkItem (clearBarrier g)).isSome = true) ∧
    (∀ (s : SchedState) (g : ModelGroup),
        s.currentGroup = some g → getNextWorkItem g = none →
        hasBarrier g = false →
        nextWorkItem spawn s =
          nwiLoop spawn s.runningGroups s.pendingGroups) ∧
    (∀ (g : ModelGroup) (rest : List ModelGroup) (pending : List Coord),
        getNextWorkItem g = none → hasBarrier g = false →
        nwiLoop spawn (g :: rest) pending = nwiLoop spawn rest pending) ∧
    (∀ (g : ModelGroup) (i : Nat) (rest : List ModelGroup)
        (pending : List Coord),
        getNextWorkItem g = some i →
        nwiLoop spawn (g :: rest) pending =
          (true, SchedState.mk (some g) (some i) rest pending)) ∧
    (∀ (p : Coord) (i : Nat) (rest : List Coord),
        getNextWorkItem ⟨p, spawn p⟩ = some i →
        nwiLoop spawn [] (p :: rest) =
          (true, SchedState.mk (some ⟨p, spawn p⟩) (some i) [] rest)) ∧
    (∀ s : SchedState,
        ((nextWorkItem spawn s).1 = false ↔
          (nextWorkItem spawn s).2 = SchedState.mk none none [] [])) := by
  refine ⟨?_, ?_, ?_, ?_, ?_, ?_⟩
  · intro s g hcg hnext hbar
    refine ⟨?_, clearBarrier_has_ready g hbar⟩
    unfold nextWorkItem
    rw [hcg]
    simp [hnext, hbar]
  · intro s g hcg hnext hbar
    unfold nextWorkItem
    rw [hcg]
    simp [hnext, hbar]
  · intro g rest pending hnext hbar
    conv_lhs => rw [nwiLoop]
    simp [hnext, hbar]
  · intro g i rest pending hnext
    unfold nwiLoop
    simp [hnext]
  · intro p i rest hnext
    unfold nwiLoop
    simp [hnext]
  · intro s
    unfold nextWorkItem
    cases hcg : s.currentGroup with
    | none => exact nwiLoop_false_iff spawn s.runningGroups s.pendingGroups
    | some g =>
      cases hg : getNextWorkItem g with
      | some i => simp [hg]
      | none =>
        by_cases hb : hasBarrier g
        · simp [hg, hb]
        · simpa [hg, hb] using
            nwiLoop_false_iff spawn s.runningGroups s.pendingGroups

/-- Witness for C2: a current group whose single item waits at a barrier has
the barrier cleared and the item (index 0) selected, returning true. -/
theorem C2_nextWorkItem_witness :
    nextWorkItem (fun _ => [])
        (SchedState.mk (some ⟨(0, 0, 0), [WIState.barrier]⟩) none [] []) =
      (true,
        SchedState.mk (some ⟨(0, 0, 0), [WIState.ready]⟩) (some 0) [] []) := by
  have h := (C2_nextWorkItem_spec (fun _ => [])).1
    (SchedState.mk (some ⟨(0, 0, 0), [WIState.barrier]⟩) none [] [])
    ⟨(0, 0, 0), [WIState.barrier]⟩ rfl (by decide) (by decide)
  exact h.1

/-- C5 counterexample: the claim says every notification block contains the
error context FOLLOWED BY the notification-specific detail and a trailing
blank line.  A memory-error block is header, context, blank: its
notification-specific detail (the "Invalid read of size ..." header) precedes
the context, and no detail line occurs after the context - only the trailing
blank - so the claimed ordering fails for this notification. -/
theorem C5_block_counterexample :
    (notifyMemoryError
        ⟨some ((1, 0, 0), (1, 0, 0), ⟨"store i32", none⟩), some (0, 0, 0),
         some "vecadd"⟩ true AddrSpace.addrGlobal 16 4).out =
      [OutLine.blank, OutLine.memErrorHeader true 4 "global" 16] ++
        printErrorContext ⟨some ((1, 0, 0), (1, 0, 0), ⟨"store i32", none⟩),
          some (0, 0, 0), some "vecadd"⟩ ++ [OutLine.blank] ∧
    OutLine.memErrorHeader true 4 "global" 16 ∉
      printErrorContext ⟨some ((1, 0, 0), (1, 0, 0), ⟨"store i32", none⟩),
        some (0, 0, 0), some "vecadd"⟩ ++ [OutLine.blank] := by
  exact ⟨rfl, by decide⟩

/-- C5 amended: every Error Router notification (memory error, data race,
divergence, generic error) writes a block to the diagnostic stream that
contains the current error context and the notification-specific detail and
ends with a blank line, and afterwards force_break is true; the detail
follows the context for data races (the other racing entity), generic errors
(the info line) and divergence (the divergent instruction), while the
memory-error detail is the header line preceding the context. -/
theorem C5_notify_amended (c : ErrorCtx) :
    (∀ (read : Bool) (a : AddrSpace) (address size : Nat),
        (notifyMemoryError c read a address size).forceBreak = true ∧
        (notifyMemoryError c read a address size).out =
          [OutLine.blank, OutLine.memErrorHeader read size (memTypeName a)
              address] ++ printErrorContext c ++ [OutLine.blank] ∧
        (∃ pre, (notifyMemoryError c read a address size).out =
            pre ++ [OutLine.blank]) ∧
        (notifyMemoryError c read a address size).out.getLast? =
          some OutLine.blank) ∧
    (∀ (gsz ngs : Coord) (t : DataRaceType) (a : AddrSpace) (address : Nat)
        (lwi lwg : Option Nat) (li : Option InstrInfo),
        (notifyDataRace c gsz ngs t a address lwi lwg li).forceBreak = true ∧
        (∃ pre post, (notifyDataRace c gsz ngs t a address lwi lwg li).out =
            pre ++ printErrorContext c ++ [OutLine.blank] ++
              raceEntity gsz ngs lwi lwg ++ post) ∧
        (notifyDataRace c gsz ngs t a address lwi lwg li).out.getLast? =
          some OutLine.blank) ∧
    (∀ (error info : String),
        (notifyError c error info).forceBreak = true ∧
        (∃ pre, (notifyError c error info).out =
            pre ++ printErrorContext c ++
              (if info = "" then [] else [OutLine.errorInfo info]) ++
              [OutLine.blank]) ∧
        (notifyError c error info).out.getLast? = some OutLine.blank) ∧
    (∀ (instr : InstrInfo) (divergence currentInfo previousInfo : String),
        (notifyDivergence c instr divergence currentInfo
            previousInfo).forceBreak = true ∧
        (∃ pre post,
            (notifyDivergence c instr divergence currentInfo
                previousInfo).out = pre ++ printErrorContext c ++ post ∧
            OutLine.prevInstrNote ∈ post ∧
            OutLine.instrDump instr.text ∈ post) ∧
        (notifyDivergence c instr divergence currentInfo
            previousInfo).out.getLast? = some OutLine.blank) := by
  refine ⟨?_, ?_, ?_, ?_⟩
  · intro read a address size
    refine ⟨rfl, rfl,
      ⟨[OutLine.blank, OutLine.memErrorHeader read size (memTypeName a)
          address] ++ printErrorContext c, ?_⟩, ?_⟩
    · simp [notifyMemoryError]
    · unfold notifyMemoryError
      simp only [← List.append_assoc, List.getLast?_concat]
  · intro gsz ngs t a address lwi lwg li
    refine ⟨rfl, ⟨[OutLine.blank, OutLine.raceHeader t (memTypeName a)
        address],
      (match li with
       | some i => printInstruction i
       | none => []) ++ [OutLine.blank], ?_⟩, ?_⟩
    · simp [notifyDataRace]
    · show (notifyDataRace c gsz ngs t a address lwi lwg li).out.getLast? =
        some OutLine.blank
      unfold notifyDataRace
      simp only [← List.append_assoc, List.getLast?_concat]
  · intro error info
    refine ⟨rfl, ⟨[OutLine.blank, OutLine.errorHeader error], rfl⟩, ?_⟩
    unfold notifyError
    simp only [← List.append_assoc, List.getLast?_concat]
  · intro instr divergence currentInfo previousInfo
    refine ⟨rfl, ⟨[OutLine.blank, OutLine.divergenceHeader divergence],
      (if currentInfo = "" then [] else [OutLine.divergenceInfo currentInfo]) ++
        [OutLine.blank, OutLine.prevInstrNote] ++ printInstruction instr ++
        (if previousInfo = "" then []
         else [OutLine.divergenceInfo previousInfo]) ++ [OutLine.blank],
      ?_, ?_, ?_⟩, ?_⟩
    · simp [notifyDivergence]
    · simp [List.mem_append, printInstruction]
    · simp [List.mem_append, printInstruction]
    · unfold notifyDivergence
      simp only [← List.append_assoc, List.getLast?_concat]

/-- Helper: an element delivered by removeFirst satisfies the predicate. -/
theorem removeFirst_some_sat {α : Type} (p : α → Bool) :
    ∀ (l : List α) (y : α) (rest : List α),
      removeFirst p l = some (y, rest) → p y = true := by
  intro l
  induction l with
  | nil => intro y rest h; simp [removeFirst] at h
  | cons a tail ih =>
    intro y rest h
    by_cases ha : p a
    · simp [removeFirst, ha] at h
      obtain ⟨h1, _⟩ := h
      rw [← h1]; exact ha
    · simp only [removeFirst, ha, if_false] at h
      cases hr : removeFirst p tail with
      | none => rw [hr] at h; simp at h
      | some pair =>
        obtain ⟨y2, rest2⟩ := pair
        rw [hr] at h
        simp at h
        obtain ⟨h1, _⟩ := h
        rw [← h1]
        exact ih y2 rest2 hr

/-- Helper: removeFirst returns none only when no element satisfies the
predicate. -/
theorem removeFirst_none_not_sat {α : Type} (p : α → Bool) :
    ∀ (l : List α), removeFirst p l = none → ∀ x ∈ l, p x = false := by
  intro l
  induction l with
  | nil => intro _ x hx; cases hx
  | cons a tail ih =>
    intro h x hx
    by_cases ha : p a
    · simp [removeFirst, ha] at h
    · simp only [removeFirst, ha, if_false] at h
      cases hr : removeFirst p tail with
      | some pair => rw [hr] at h; simp at h
      | none =>
        cases hx with
        | head => simpa using ha
        | tail _ hx2 => exact ih hr x hx2

/-- Helper: integer division then remainder reassemble the dividend. -/
theorem div_mul_add_mod (a b : Nat) : a / b * b + a % b = a := by
  rw [Nat.mul_comm]
  exact Nat.div_add_mod a b

/-- Helper: the work-item fetched at local id `G mod local_size` from the
group at `G / local_size` has global id exactly G. -/
theorem itemGlobalID_div_mod (G lsz : Coord) :
    itemGlobalID (divCoord G lsz) (modCoord G lsz) lsz = G := by
  obtain ⟨g1, g2, g3⟩ := G
  obtain ⟨l1, l2, l3⟩ := lsz
  unfold itemGlobalID divCoord modCoord
  dsimp only
  rw [div_mul_add_mod, div_mul_add_mod, div_mul_add_mod]

/-- C8: for a workitem command whose global id G is componentwise below the
global size and whose containing group is the current group, in the running
pool, or in the pending pool, the command succeeds, the new current item has
global id G, the new current group has id G / local_size componentwise, and
when the target group differs from the previous current group the previous
group is appended at the tail of the running pool. -/
theorem C8_workitem_switch (spawn : Coord → List WIState) (gsz lsz G : Coord)
    (s : WiCmdState)
    (hG : G.1 < gsz.1 ∧ G.2.1 < gsz.2.1 ∧ G.2.2 < gsz.2.2)
    (hfound : s.currentGroup.gid = divCoord G lsz ∨
        divCoord G lsz ∈ s.runningGroups.map ModelGroup.gid ∨
        divCoord G lsz ∈ s.pendingGroups) :
    ∃ s2, workitemCmd spawn gsz lsz G s = some s2 ∧
      s2.currentItemGid = some G ∧
      s2.currentGroup.gid = divCoord G lsz ∧
      (s2.currentGroup ≠ s.currentGroup →
        s2.runningGroups.getLast? = some s.currentGroup) := by
  unfold workitemCmd
  rw [if_pos hG]
  unfold workitemSwitch
  by_cases hcur : s.currentGroup.gid = divCoord G lsz
  · rw [if_pos hcur]
    refine ⟨_, rfl, ?_, hcur, ?_⟩
    · simp [itemGlobalID_div_mod]
    · intro hne
      exact absurd rfl hne
  · rw [if_neg hcur]
    cases hrun : removeFirst (fun g => g.gid == divCoord G lsz)
        s.runningGroups with
    | some pair =>
      obtain ⟨g, rest⟩ := pair
      have hgid : g.gid = divCoord G lsz := by
        have := removeFirst_some_sat _ _ _ _ hrun
        simpa using this
      refine ⟨_, rfl, ?_, hgid, ?_⟩
      · simp [itemGlobalID_div_mod]
      · intro _
        exact List.getLast?_concat rest
    | none =>
      cases hpend : removeFirst (fun p => p == divCoord G lsz)
          s.pendingGroups with
      | some pair =>
        obtain ⟨p, rest⟩ := pair
        refine ⟨_, rfl, ?_, rfl, ?_⟩
        · simp [itemGlobalID_div_mod]
        · intro _
          exact List.getLast?_concat s.runningGroups
      | none =>
        exfalso
        rcases hfound with h | h | h
        · exact hcur h
        · rw [List.mem_map] at h
          obtain ⟨g, hg, hgid⟩ := h
          have := removeFirst_none_not_sat _ _ hrun g hg
          rw [hgid] at this
          simp at this
        · have := removeFirst_none_not_sat _ _ hpend _ h
          simp at this

/-- Witness for C8: switching to global id (2,0,0) with local size (2,1,1)
finds group (1,0,0) in the running pool, makes its item (2,0,0) current, and
stashes the previous current group (0,0,0) at the tail of the running pool. -/
theorem C8_workitem_witness :
    ∃ s2, workitemCmd (fun _ => [WIState.ready]) (4, 1, 1) (2, 1, 1) (2, 0, 0)
        (WiCmdState.mk ⟨(0, 0, 0), [WIState.ready]⟩ none
          [⟨(1, 0, 0), [WIState.ready]⟩] []) = some s2 ∧
      s2.currentItemGid = some (2, 0, 0) ∧
      s2.currentGroup.gid = divCoord (2, 0, 0) (2, 1, 1) ∧
      (s2.currentGroup ≠ ModelGroup.mk (0, 0, 0) [WIState.ready] →
        s2.runningGroups.getLast? =
          some (ModelGroup.mk (0, 0, 0) [WIState.ready])) :=
  C8_workitem_switch (fun _ => [WIState.ready]) (4, 1, 1) (2, 1, 1) (2, 0, 0)
    (WiCmdState.mk ⟨(0, 0, 0), [WIState.ready]⟩ none
      [⟨(1, 0, 0), [WIState.ready]⟩] [])
    (by decide) (by decide)

end Oclgrind
